import Mathlib

/-!
Verification development for the payment_engine ledger
(src/accounts.rs, src/transactions.rs).

The transaction and account state machine of ClientInfoStorage::update is
embedded shallowly: the Rust f32 Amount is modelled by the exact rationals,
the two HashMaps (ClientId to (Account, deposit log) and TransactionId to
DepositLog) are modelled by association lists with first-match lookup,
replace-in-place update and replace-or-append insert, which matches the
unique-key semantics of HashMap::get_mut and HashMap::insert.
-/

/-- ClientId is u16 in the source; only equality tests are performed on it. -/
abbrev ClientId := Nat

/-- TransactionId is u32 in the source; only equality tests are performed on it. -/
abbrev TransactionId := Nat

/-- Amount is f32 in the source; modelled by the exact rationals. -/
abbrev Amount := Rat

/-- Mirrors struct Account of src/accounts.rs (fields available, held, locked). -/
structure Account where
  available : Amount
  held : Amount
  locked : Bool
deriving DecidableEq, Repr

/-- Mirrors Account::default: available 0, held 0, locked false. -/
def Account.default : Account := ⟨0, 0, false⟩

/-- Mirrors struct DepositLog of src/accounts.rs (fields amount, disputed). -/
structure DepositLog where
  amount : Amount
  disputed : Bool
deriving DecidableEq, Repr

/-- Mirrors enum Transaction of src/transactions.rs: five variants, each
carrying client and tx, with amount only on Deposit and Withdrawal. -/
inductive Transaction where
  | Deposit : ClientId → TransactionId → Amount → Transaction
  | Withdrawal : ClientId → TransactionId → Amount → Transaction
  | Dispute : ClientId → TransactionId → Transaction
  | Resolve : ClientId → TransactionId → Transaction
  | ChargeBack : ClientId → TransactionId → Transaction
deriving DecidableEq, Repr

/-- The client id named by a transaction (the info.client field). -/
def Transaction.client : Transaction → ClientId
  | .Deposit c _ _ => c
  | .Withdrawal c _ _ => c
  | .Dispute c _ => c
  | .Resolve c _ => c
  | .ChargeBack c _ => c

/-- First-match lookup in an association list; models HashMap::get. -/
def alLookup {α β : Type} [DecidableEq α] (k : α) : List (α × β) → Option β
  | [] => none
  | (k1, v) :: rest => if k = k1 then some v else alLookup k rest

/-- Apply f to the value of the first entry with key k, if any; models
mutation through HashMap::get_mut. -/
def alUpdate {α β : Type} [DecidableEq α] (k : α) (f : β → β) : List (α × β) → List (α × β)
  | [] => []
  | (k1, v) :: rest => if k = k1 then (k1, f v) :: rest else (k1, v) :: alUpdate k f rest

/-- Replace the first entry with key k, or append a new one; models
HashMap::insert. -/
def alInsert {α β : Type} [DecidableEq α] (k : α) (v : β) : List (α × β) → List (α × β)
  | [] => [(k, v)]
  | (k1, v1) :: rest => if k = k1 then (k1, v) :: rest else (k1, v1) :: alInsert k v rest

/-- The deposit log map of one client: HashMap of TransactionId to DepositLog. -/
abbrev Deposits := List (TransactionId × DepositLog)

/-- Mirrors struct ClientInfoStorage: HashMap of ClientId to
(Account, HashMap of TransactionId to DepositLog). -/
abbrev ClientInfoStorage := List (ClientId × Account × Deposits)

/-- Mirrors Account::deposit: add the amount to available when it is
nonnegative, otherwise log and leave the account unchanged. -/
def Account.deposit (a : Account) (amount : Amount) : Account :=
  if 0 ≤ amount then { a with available := a.available + amount } else a

/-- Mirrors Account::withdraw: when the amount is nonnegative and
available minus amount stays nonnegative, subtract it from available;
otherwise log and leave the account unchanged. -/
def Account.withdraw (a : Account) (amount : Amount) : Account :=
  if 0 ≤ amount then
    if 0 ≤ a.available - amount then { a with available := a.available - amount } else a
  else a

/-- Mirrors Account::dispute: move the amount from available to held. -/
def Account.dispute (a : Account) (amount : Amount) : Account :=
  { a with available := a.available - amount, held := a.held + amount }

/-- Mirrors Account::resolve: move the amount from held back to available. -/
def Account.resolve (a : Account) (amount : Amount) : Account :=
  { a with available := a.available + amount, held := a.held - amount }

/-- Mirrors Account::charge_back: subtract the amount from held and lock. -/
def Account.charge_back (a : Account) (amount : Amount) : Account :=
  { a with held := a.held - amount, locked := true }

/-- The Deposit arm of ClientInfoStorage::update for an existing client:
when not locked, insert the DepositLog for tx (replacing any existing one)
and call Account::deposit. The record is inserted before the amount sign
is checked, exactly as in the source. -/
def depositEntry (tx : TransactionId) (amount : Amount) (ci : Account × Deposits) :
    Account × Deposits :=
  if ci.1.locked then ci
  else (Account.deposit ci.1 amount, alInsert tx ⟨amount, false⟩ ci.2)

/-- The Withdrawal arm of ClientInfoStorage::update for an existing client:
when not locked, call Account::withdraw; deposit history is untouched. -/
def withdrawEntry (amount : Amount) (ci : Account × Deposits) : Account × Deposits :=
  if ci.1.locked then ci else (Account.withdraw ci.1 amount, ci.2)

/-- The Dispute arm of ClientInfoStorage::update for an existing client:
when not locked and the deposit for tx exists and is not yet disputed,
mark it disputed and call Account::dispute with its amount. -/
def disputeEntry (tx : TransactionId) (ci : Account × Deposits) : Account × Deposits :=
  if ci.1.locked then ci
  else
    match alLookup tx ci.2 with
    | some dep =>
      if dep.disputed then ci
      else (Account.dispute ci.1 dep.amount,
            alUpdate tx (fun d => { d with disputed := true }) ci.2)
    | none => ci

/-- The Resolve arm of ClientInfoStorage::update for an existing client:
when not locked and the deposit for tx exists and is disputed, clear the
flag and call Account::resolve with its amount. -/
def resolveEntry (tx : TransactionId) (ci : Account × Deposits) : Account × Deposits :=
  if ci.1.locked then ci
  else
    match alLookup tx ci.2 with
    | some dep =>
      if dep.disputed then
        (Account.resolve ci.1 dep.amount,
         alUpdate tx (fun d => { d with disputed := false }) ci.2)
      else ci
    | none => ci

/-- The ChargeBack arm of ClientInfoStorage::update for an existing client:
when not locked and the deposit for tx exists and is disputed, clear the
flag and call Account::charge_back with its amount, which locks the account. -/
def chargeBackEntry (tx : TransactionId) (ci : Account × Deposits) : Account × Deposits :=
  if ci.1.locked then ci
  else
    match alLookup tx ci.2 with
    | some dep =>
      if dep.disputed then
        (Account.charge_back ci.1 dep.amount,
         alUpdate tx (fun d => { d with disputed := false }) ci.2)
      else ci
    | none => ci

/-- Mirrors ClientInfoStorage::update of src/accounts.rs, arm by arm.
Every arm first checks whether the account of the named client is locked
(no-op when it is); lookup failures are silent no-ops exactly as in the
source, where they only log. A Deposit for an unknown client creates the
account via Account::default().deposit(amount) together with a fresh
deposit log holding the record for tx. -/
def ClientInfoStorage.update (s : ClientInfoStorage) (t : Transaction) : ClientInfoStorage :=
  match t with
  | .Deposit client tx amount =>
    match alLookup client s with
    | some _ => alUpdate client (depositEntry tx amount) s
    | none =>
      alInsert client (Account.deposit Account.default amount, [(tx, ⟨amount, false⟩)]) s
  | .Withdrawal client _ amount => alUpdate client (withdrawEntry amount) s
  | .Dispute client tx => alUpdate client (disputeEntry tx) s
  | .Resolve client tx => alUpdate client (resolveEntry tx) s
  | .ChargeBack client tx => alUpdate client (chargeBackEntry tx) s

/-- Replay a transaction stream from the empty storage, in input order. -/
def replay (ts : List Transaction) : ClientInfoStorage :=
  ts.foldl ClientInfoStorage.update []

/-- Rounding to the nearest integer, halves away from zero: the behaviour
of f32::round used by round_to_4_dec. -/
def roundHalfAway (x : Rat) : Int :=
  if 0 ≤ x then ⌊x + 1 / 2⌋ else -⌊-x + 1 / 2⌋

/-- Mirrors round_to_4_dec of src/accounts.rs:
(amount * 10000.0).round() / 10000.0. -/
def round_to_4_dec (amount : Amount) : Amount :=
  (roundHalfAway (amount * 10000) : Rat) / 10000

/-- Mirrors struct CsvAccount of src/accounts.rs. -/
structure CsvAccount where
  client : ClientId
  available : Amount
  held : Amount
  total : Amount
  locked : Bool
deriving DecidableEq, Repr

/-- Mirrors ClientInfoStorage::get_csv_format_accounts: one CsvAccount per
stored client, each field rounded at export time only. -/
def get_csv_format_accounts (s : ClientInfoStorage) : List CsvAccount :=
  s.map (fun e =>
    { client := e.1
      available := round_to_4_dec e.2.1.available
      held := round_to_4_dec e.2.1.held
      total := round_to_4_dec (e.2.1.available + e.2.1.held)
      locked := e.2.1.locked })

/-- The key list of an association list. -/
def alKeys {α β : Type} (l : List (α × β)) : List α :=
  l.map Prod.fst

theorem alKeys_nil {α β : Type} : alKeys ([] : List (α × β)) = [] := rfl

theorem alKeys_cons {α β : Type} (p : α × β) (l : List (α × β)) :
    alKeys (p :: l) = p.1 :: alKeys l := rfl

section AListLemmas

variable {α β : Type} [DecidableEq α]

theorem alLookup_alUpdate_self (k : α) (f : β → β) (l : List (α × β)) :
    alLookup k (alUpdate k f l) = Option.map f (alLookup k l) := by
  induction l with
  | nil => simp [alLookup, alUpdate]
  | cons hd tl ih =>
    obtain ⟨k1, v1⟩ := hd
    by_cases h : k = k1
    · simp [alLookup, alUpdate, h]
    · simp [alLookup, alUpdate, h, ih]

theorem alLookup_alUpdate_ne (k k1 : α) (f : β → β) (l : List (α × β)) (h : k ≠ k1) :
    alLookup k (alUpdate k1 f l) = alLookup k l := by
  induction l with
  | nil => simp [alUpdate]
  | cons hd tl ih =>
    obtain ⟨k2, v2⟩ := hd
    by_cases h1 : k1 = k2
    · subst h1
      simp [alLookup, alUpdate, h]
    · by_cases h2 : k = k2 <;> simp [alLookup, alUpdate, h1, h2, ih]

theorem alLookup_alInsert_self (k : α) (v : β) (l : List (α × β)) :
    alLookup k (alInsert k v l) = some v := by
  induction l with
  | nil => simp [alLookup, alInsert]
  | cons hd tl ih =>
    obtain ⟨k1, v1⟩ := hd
    by_cases h : k = k1 <;> simp [alLookup, alInsert, h, ih]

theorem alLookup_alInsert_ne (k k1 : α) (v : β) (l : List (α × β)) (h : k ≠ k1) :
    alLookup k (alInsert k1 v l) = alLookup k l := by
  induction l with
  | nil => simp [alLookup, alInsert, h]
  | cons hd tl ih =>
    obtain ⟨k2, v2⟩ := hd
    by_cases h1 : k1 = k2
    · subst h1
      simp [alLookup, alInsert, h]
    · by_cases h2 : k = k2 <;> simp [alLookup, alInsert, h1, h2, ih]

theorem alUpdate_of_lookup_none (k : α) (f : β → β) (l : List (α × β))
    (h : alLookup k l = none) : alUpdate k f l = l := by
  induction l with
  | nil => simp [alUpdate]
  | cons hd tl ih =>
    obtain ⟨k1, v1⟩ := hd
    by_cases h1 : k = k1
    · simp [alLookup, h1] at h
    · simp [alLookup, h1] at h
      simp [alUpdate, h1, ih h]

theorem alUpdate_eq_self (k : α) (f : β → β) (l : List (α × β)) (v : β)
    (h : alLookup k l = some v) (hf : f v = v) : alUpdate k f l = l := by
  induction l with
  | nil => simp [alLookup] at h
  | cons hd tl ih =>
    obtain ⟨k1, v1⟩ := hd
    by_cases h1 : k = k1
    · simp [alLookup, h1] at h
      subst h
      simp [alUpdate, h1, hf]
    · simp [alLookup, h1] at h
      simp [alUpdate, h1, ih h]

theorem alUpdate_alUpdate (k : α) (f g : β → β) (l : List (α × β)) :
    alUpdate k g (alUpdate k f l) = alUpdate k (fun v => g (f v)) l := by
  induction l with
  | nil => simp [alUpdate]
  | cons hd tl ih =>
    obtain ⟨k1, v1⟩ := hd
    by_cases h : k = k1 <;> simp [alUpdate, h, ih]

theorem alLookup_mem (k : α) (v : β) (l : List (α × β)) (h : alLookup k l = some v) :
    (k, v) ∈ l := by
  induction l with
  | nil => simp [alLookup] at h
  | cons hd tl ih =>
    obtain ⟨k1, v1⟩ := hd
    by_cases h1 : k = k1
    · simp [alLookup, h1] at h
      simp [h1, h]
    · simp [alLookup, h1] at h
      simp [ih h]

theorem alKeys_alUpdate (k : α) (f : β → β) (l : List (α × β)) :
    alKeys (alUpdate k f l) = alKeys l := by
  induction l with
  | nil => simp [alUpdate]
  | cons hd tl ih =>
    obtain ⟨k1, v1⟩ := hd
    by_cases h : k = k1 <;> simp [alUpdate, alKeys_cons, h, ih]

theorem alKeys_alInsert (k : α) (v : β) (l : List (α × β)) :
    alKeys (alInsert k v l) = if k ∈ alKeys l then alKeys l else alKeys l ++ [k] := by
  induction l with
  | nil => simp [alInsert, alKeys_nil, alKeys_cons]
  | cons hd tl ih =>
    obtain ⟨k1, v1⟩ := hd
    by_cases h : k = k1
    · subst h
      simp [alInsert, alKeys_cons]
    · by_cases h2 : k ∈ alKeys tl <;>
        simp [alInsert, alKeys_cons, h, ih, h2]

theorem nodup_alKeys_alInsert (k : α) (v : β) (l : List (α × β))
    (h : (alKeys l).Nodup) : (alKeys (alInsert k v l)).Nodup := by
  rw [alKeys_alInsert]
  by_cases h2 : k ∈ alKeys l
  · simpa [h2] using h
  · simp [h2, List.nodup_append, h]

theorem mem_alKeys_of_lookup (k : α) (v : β) (l : List (α × β))
    (h : alLookup k l = some v) : k ∈ alKeys l := by
  have := alLookup_mem k v l h
  exact List.mem_map.mpr ⟨(k, v), this, rfl⟩

end AListLemmas

example :
    replay [Transaction.Deposit 2 1 1, Transaction.Withdrawal 2 3 (1/2)] =
      [(2, ⟨1/2, 0, false⟩, [(1, ⟨1, false⟩)])] := by
  norm_num [replay, ClientInfoStorage.update, alLookup, alUpdate, alInsert,
    depositEntry, withdrawEntry, Account.deposit, Account.withdraw, Account.default]

example :
    replay [Transaction.Deposit 2 1 1, Transaction.Dispute 2 1,
            Transaction.ChargeBack 2 1, Transaction.Deposit 2 5 7] =
      [(2, ⟨0, 0, true⟩, [(1, ⟨1, false⟩)])] := by
  norm_num [replay, ClientInfoStorage.update, alLookup, alUpdate, alInsert,
    depositEntry, disputeEntry, chargeBackEntry,
    Account.deposit, Account.dispute, Account.charge_back, Account.default]

/-- C1: once the account of a client is locked, every further transaction
naming that client (Deposit, Withdrawal, Dispute, Resolve or ChargeBack)
leaves the whole storage unchanged, so the available, held and locked
fields and all deposit records of that client are untouched and locked
remains true. The exemption of the claim, a Deposit for a client id with
no existing account, cannot apply here because a locked account exists. -/
theorem C1_locked_account_absorbing (s : ClientInfoStorage) (t : Transaction)
    (c : ClientId) (ci : Account × Deposits) (hc : t.client = c)
    (h : alLookup c s = some ci) (hlocked : ci.1.locked = true) :
    ClientInfoStorage.update s t = s := by
  subst hc
  cases t with
  | Deposit c1 tx amount =>
    simp only [Transaction.client] at h
    simp only [ClientInfoStorage.update, h]
    exact alUpdate_eq_self _ _ _ _ h (by simp [depositEntry, hlocked])
  | Withdrawal c1 tx amount =>
    simp only [Transaction.client] at h
    exact alUpdate_eq_self _ _ _ _ h (by simp [withdrawEntry, hlocked])
  | Dispute c1 tx =>
    simp only [Transaction.client] at h
    exact alUpdate_eq_self _ _ _ _ h (by simp [disputeEntry, hlocked])
  | Resolve c1 tx =>
    simp only [Transaction.client] at h
    exact alUpdate_eq_self _ _ _ _ h (by simp [resolveEntry, hlocked])
  | ChargeBack c1 tx =>
    simp only [Transaction.client] at h
    exact alUpdate_eq_self _ _ _ _ h (by simp [chargeBackEntry, hlocked])

/-- Witness for C1 at a concrete locked account and a Deposit naming it. -/
theorem C1_locked_account_absorbing_witness :
    Transaction.client (Transaction.Deposit 2 9 5) = 2 ∧
      alLookup 2 [(2, (⟨1, 0, true⟩ : Account), ([(1, ⟨1, false⟩)] : Deposits))] =
        some (⟨1, 0, true⟩, [(1, ⟨1, false⟩)]) ∧
      (⟨1, 0, true⟩ : Account).locked = true ∧
      ClientInfoStorage.update [(2, ⟨1, 0, true⟩, [(1, ⟨1, false⟩)])]
          (Transaction.Deposit 2 9 5) =
        [(2, ⟨1, 0, true⟩, [(1, ⟨1, false⟩)])] :=
  ⟨rfl, rfl, rfl,
    C1_locked_account_absorbing _ _ 2 (⟨1, 0, true⟩, [(1, ⟨1, false⟩)]) rfl rfl rfl⟩

/-- C9: applying a transaction never changes the stored entry of any
client other than the one the transaction names; the update function is
total, so no transaction can abort or halt processing. -/
theorem C9_other_clients_unchanged (s : ClientInfoStorage) (t : Transaction)
    (c1 : ClientId) (h : c1 ≠ t.client) :
    alLookup c1 (ClientInfoStorage.update s t) = alLookup c1 s := by
  cases t with
  | Deposit c tx amount =>
    simp only [Transaction.client] at h
    simp only [ClientInfoStorage.update]
    cases hl : alLookup c s with
    | some v => exact alLookup_alUpdate_ne _ _ _ _ h
    | none => exact alLookup_alInsert_ne _ _ _ _ h
  | Withdrawal c tx amount =>
    simp only [Transaction.client] at h
    exact alLookup_alUpdate_ne _ _ _ _ h
  | Dispute c tx =>
    simp only [Transaction.client] at h
    exact alLookup_alUpdate_ne _ _ _ _ h
  | Resolve c tx =>
    simp only [Transaction.client] at h
    exact alLookup_alUpdate_ne _ _ _ _ h
  | ChargeBack c tx =>
    simp only [Transaction.client] at h
    exact alLookup_alUpdate_ne _ _ _ _ h

/-- Witness for C9: a deposit for client 2 leaves the entry of client 1
as it was. -/
theorem C9_other_clients_unchanged_witness :
    (1 : ClientId) ≠ Transaction.client (Transaction.Deposit 2 9 5) ∧
      alLookup 1 (ClientInfoStorage.update [(1, ⟨3, 0, false⟩, [])]
          (Transaction.Deposit 2 9 5)) =
        alLookup 1 [(1, (⟨3, 0, false⟩ : Account), ([] : Deposits))] :=
  ⟨by decide, C9_other_clients_unchanged _ _ 1 (by decide)⟩

/-- Applying the Dispute arm twice to one client entry gives the same
entry as applying it once. -/
theorem disputeEntry_idem (tx : TransactionId) (v : Account × Deposits) :
    disputeEntry tx (disputeEntry tx v) = disputeEntry tx v := by
  obtain ⟨acct, deps⟩ := v
  by_cases hl : acct.locked
  · simp [disputeEntry, hl]
  · cases hd : alLookup tx deps with
    | none => simp [disputeEntry, hl, hd]
    | some dep =>
      by_cases hdd : dep.disputed
      · simp [disputeEntry, hl, hd, hdd]
      · simp [disputeEntry, hl, hd, hdd, Account.dispute, alLookup_alUpdate_self]

/-- C6: disputing the same (client, tx) twice in immediate succession
yields the same storage as disputing it once; the second dispute is
rejected because the record is already disputed. -/
theorem C6_dispute_idempotent (s : ClientInfoStorage) (c : ClientId) (tx : TransactionId) :
    ClientInfoStorage.update (ClientInfoStorage.update s (Transaction.Dispute c tx))
        (Transaction.Dispute c tx) =
      ClientInfoStorage.update s (Transaction.Dispute c tx) := by
  simp only [ClientInfoStorage.update]
  rw [alUpdate_alUpdate]
  have hf : (fun v => disputeEntry tx (disputeEntry tx v)) = disputeEntry tx :=
    funext (disputeEntry_idem tx)
  rw [hf]

/-- C3: a Withdrawal with nonnegative amount on an existing unlocked
account is rejected when available minus amount is negative, leaving
available unchanged, and otherwise decreases available by exactly the
amount; held, locked and all deposit records are unchanged either way. -/
theorem C3_withdrawal (s : ClientInfoStorage) (c : ClientId) (tx : TransactionId)
    (amount : Amount) (acct : Account) (deps : Deposits)
    (h : alLookup c s = some (acct, deps)) (hl : acct.locked = false)
    (ha : 0 ≤ amount) :
    alLookup c (ClientInfoStorage.update s (Transaction.Withdrawal c tx amount)) =
      some (if acct.available - amount < 0 then acct
            else ⟨acct.available - amount, acct.held, acct.locked⟩, deps) := by
  simp only [ClientInfoStorage.update]
  rw [alLookup_alUpdate_self, h]
  by_cases hc : acct.available - amount < 0
  · simp [withdrawEntry, Account.withdraw, hl, ha, hc, not_le.mpr hc]
  · simp [withdrawEntry, Account.withdraw, hl, ha, hc, not_lt.mp hc]

/-- Witness for C3 at a concrete account with available 5 and a
withdrawal of 2. -/
theorem C3_withdrawal_witness :
    alLookup 1 [(1, (⟨5, 0, false⟩ : Account), ([] : Deposits))] =
        some (⟨5, 0, false⟩, []) ∧
      (⟨5, 0, false⟩ : Account).locked = false ∧ (0 : Amount) ≤ 2 ∧
      alLookup 1 (ClientInfoStorage.update [(1, ⟨5, 0, false⟩, [])]
          (Transaction.Withdrawal 1 7 2)) =
        some (if (⟨5, 0, false⟩ : Account).available - 2 < 0 then (⟨5, 0, false⟩ : Account)
              else ⟨(⟨5, 0, false⟩ : Account).available - 2, (⟨5, 0, false⟩ : Account).held,
                    (⟨5, 0, false⟩ : Account).locked⟩, []) :=
  ⟨rfl, rfl, by norm_num,
    C3_withdrawal _ 1 7 2 _ _ rfl rfl (by norm_num)⟩

/-- C4: a Dispute on an existing, not yet disputed deposit record of an
unlocked account marks the record disputed, moves the amount of the
record from available to held, and keeps available plus held unchanged;
the arithmetic is applied literally with no clamping even when available
becomes negative. -/
theorem C4_dispute (s : ClientInfoStorage) (c : ClientId) (tx : TransactionId)
    (acct : Account) (deps : Deposits) (dep : DepositLog)
    (h : alLookup c s = some (acct, deps)) (hl : acct.locked = false)
    (hd : alLookup tx deps = some dep) (hdd : dep.disputed = false) :
    alLookup c (ClientInfoStorage.update s (Transaction.Dispute c tx)) =
        some (⟨acct.available - dep.amount, acct.held + dep.amount, acct.locked⟩,
              alUpdate tx (fun d => { d with disputed := true }) deps) ∧
      alLookup tx (alUpdate tx (fun d => { d with disputed := true }) deps) =
        some ⟨dep.amount, true⟩ ∧
      acct.available - dep.amount + (acct.held + dep.amount) =
        acct.available + acct.held := by
  refine ⟨?_, ?_, by ring⟩
  · simp only [ClientInfoStorage.update]
    rw [alLookup_alUpdate_self, h]
    simp [disputeEntry, hl, hd, hdd, Account.dispute]
  · rw [alLookup_alUpdate_self, hd]
    rfl

/-- Witness for C4 at a concrete state where the dispute drives available
negative (available 1, disputed amount 5). -/
theorem C4_dispute_witness :
    alLookup 2 [(2, (⟨1, 0, false⟩ : Account), ([(9, ⟨5, false⟩)] : Deposits))] =
        some (⟨1, 0, false⟩, [(9, ⟨5, false⟩)]) ∧
      (⟨1, 0, false⟩ : Account).locked = false ∧
      alLookup 9 ([(9, ⟨5, false⟩)] : Deposits) = some ⟨5, false⟩ ∧
      (⟨5, false⟩ : DepositLog).disputed = false ∧
      (alLookup 2 (ClientInfoStorage.update [(2, ⟨1, 0, false⟩, [(9, ⟨5, false⟩)])]
            (Transaction.Dispute 2 9)) =
          some (⟨(⟨1, 0, false⟩ : Account).available - (⟨5, false⟩ : DepositLog).amount,
                 (⟨1, 0, false⟩ : Account).held + (⟨5, false⟩ : DepositLog).amount,
                 (⟨1, 0, false⟩ : Account).locked⟩,
                alUpdate 9 (fun d : DepositLog => { d with disputed := true })
                  ([(9, ⟨5, false⟩)] : Deposits)) ∧
        alLookup 9 (alUpdate 9 (fun d : DepositLog => { d with disputed := true })
            ([(9, ⟨5, false⟩)] : Deposits)) =
          some ⟨(⟨5, false⟩ : DepositLog).amount, true⟩ ∧
        (⟨1, 0, false⟩ : Account).available - (⟨5, false⟩ : DepositLog).amount +
            ((⟨1, 0, false⟩ : Account).held + (⟨5, false⟩ : DepositLog).amount) =
          (⟨1, 0, false⟩ : Account).available + (⟨1, 0, false⟩ : Account).held) :=
  ⟨rfl, rfl, rfl, rfl,
    C4_dispute [(2, ⟨1, 0, false⟩, [(9, ⟨5, false⟩)])] 2 9 ⟨1, 0, false⟩
      [(9, ⟨5, false⟩)] ⟨5, false⟩ rfl rfl rfl rfl⟩

/-- C5: a ChargeBack on an existing deposit record of an unlocked account
is rejected with no state change at all when the record is not disputed;
when it is disputed, the record flag is cleared, the amount of the record
is subtracted from held, available is unchanged, and the account becomes
locked. -/
theorem C5_charge_back (s : ClientInfoStorage) (c : ClientId) (tx : TransactionId)
    (acct : Account) (deps : Deposits) (dep : DepositLog)
    (h : alLookup c s = some (acct, deps)) (hl : acct.locked = false)
    (hd : alLookup tx deps = some dep) :
    (dep.disputed = false →
        ClientInfoStorage.update s (Transaction.ChargeBack c tx) = s) ∧
      (dep.disputed = true →
        alLookup c (ClientInfoStorage.update s (Transaction.ChargeBack c tx)) =
          some (⟨acct.available, acct.held - dep.amount, true⟩,
                alUpdate tx (fun d => { d with disputed := false }) deps)) := by
  constructor
  · intro hdd
    simp only [ClientInfoStorage.update]
    exact alUpdate_eq_self _ _ _ _ h (by simp [chargeBackEntry, hl, hd, hdd])
  · intro hdd
    simp only [ClientInfoStorage.update]
    rw [alLookup_alUpdate_self, h]
    simp [chargeBackEntry, hl, hd, hdd, Account.charge_back]

/-- Witness for C5 with a disputed record of amount 3 held by an account
with held 3, and a not yet disputed record on the same account. -/
theorem C5_charge_back_witness :
    alLookup 2 [(2, (⟨1, 3, false⟩ : Account), ([(9, ⟨3, true⟩)] : Deposits))] =
        some (⟨1, 3, false⟩, [(9, ⟨3, true⟩)]) ∧
      (⟨1, 3, false⟩ : Account).locked = false ∧
      alLookup 9 ([(9, ⟨3, true⟩)] : Deposits) = some ⟨3, true⟩ ∧
      (((⟨3, true⟩ : DepositLog).disputed = false →
          ClientInfoStorage.update [(2, ⟨1, 3, false⟩, [(9, ⟨3, true⟩)])]
              (Transaction.ChargeBack 2 9) =
            [(2, ⟨1, 3, false⟩, [(9, ⟨3, true⟩)])]) ∧
        ((⟨3, true⟩ : DepositLog).disputed = true →
          alLookup 2 (ClientInfoStorage.update [(2, ⟨1, 3, false⟩, [(9, ⟨3, true⟩)])]
              (Transaction.ChargeBack 2 9)) =
            some (⟨(⟨1, 3, false⟩ : Account).available,
                   (⟨1, 3, false⟩ : Account).held - (⟨3, true⟩ : DepositLog).amount, true⟩,
                  alUpdate 9 (fun d : DepositLog => { d with disputed := false })
                    ([(9, ⟨3, true⟩)] : Deposits)))) :=
  ⟨rfl, rfl, rfl,
    C5_charge_back [(2, ⟨1, 3, false⟩, [(9, ⟨3, true⟩)])] 2 9 ⟨1, 3, false⟩
      [(9, ⟨3, true⟩)] ⟨3, true⟩ rfl rfl rfl⟩

/-- C10: on an existing, not yet disputed deposit record of an unlocked
account, a Dispute followed immediately by a Resolve for the same
(client, tx) returns the storage to exactly the state before the dispute:
available, held, locked and the amount and disputed flag of the record
are all restored. -/
theorem C10_dispute_resolve_round_trip (s : ClientInfoStorage) (c : ClientId)
    (tx : TransactionId) (acct : Account) (deps : Deposits) (dep : DepositLog)
    (h : alLookup c s = some (acct, deps)) (hl : acct.locked = false)
    (hd : alLookup tx deps = some dep) (hdd : dep.disputed = false) :
    ClientInfoStorage.update (ClientInfoStorage.update s (Transaction.Dispute c tx))
        (Transaction.Resolve c tx) = s := by
  simp only [ClientInfoStorage.update]
  rw [alUpdate_alUpdate]
  apply alUpdate_eq_self _ _ _ _ h
  show resolveEntry tx (disputeEntry tx (acct, deps)) = (acct, deps)
  have hstep : disputeEntry tx (acct, deps) =
      (Account.dispute acct dep.amount,
       alUpdate tx (fun d => { d with disputed := true }) deps) := by
    simp [disputeEntry, hl, hd, hdd]
  rw [hstep]
  have hacct : Account.resolve (Account.dispute acct dep.amount) dep.amount = acct := by
    unfold Account.dispute Account.resolve
    cases acct with
    | mk av hh lk =>
      congr 1 <;> ring
  have hdeps :
      alUpdate tx (fun d => { d with disputed := false })
        (alUpdate tx (fun d => { d with disputed := true }) deps) = deps := by
    rw [alUpdate_alUpdate]
    apply alUpdate_eq_self _ _ _ _ hd
    cases dep with
    | mk amt dis =>
      simp only at hdd
      simp [hdd]
  have hlocked2 : (Account.dispute acct dep.amount).locked = false := by
    simp [Account.dispute, hl]
  have hlook2 : alLookup tx (alUpdate tx (fun d => { d with disputed := true }) deps) =
      some { dep with disputed := true } := by
    rw [alLookup_alUpdate_self, hd]
    rfl
  simp [resolveEntry, hlocked2, hlook2, hacct, hdeps]

/-- Witness for C10 at a concrete account and record of amount 4. -/
theorem C10_dispute_resolve_round_trip_witness :
    alLookup 3 [(3, (⟨10, 0, false⟩ : Account), ([(5, ⟨4, false⟩)] : Deposits))] =
        some (⟨10, 0, false⟩, [(5, ⟨4, false⟩)]) ∧
      (⟨10, 0, false⟩ : Account).locked = false ∧
      alLookup 5 ([(5, ⟨4, false⟩)] : Deposits) = some ⟨4, false⟩ ∧
      (⟨4, false⟩ : DepositLog).disputed = false ∧
      ClientInfoStorage.update
          (ClientInfoStorage.update [(3, ⟨10, 0, false⟩, [(5, ⟨4, false⟩)])]
            (Transaction.Dispute 3 5))
          (Transaction.Resolve 3 5) =
        [(3, ⟨10, 0, false⟩, [(5, ⟨4, false⟩)])] :=
  ⟨rfl, rfl, rfl, rfl,
    C10_dispute_resolve_round_trip [(3, ⟨10, 0, false⟩, [(5, ⟨4, false⟩)])] 3 5
      ⟨10, 0, false⟩ [(5, ⟨4, false⟩)] ⟨4, false⟩ rfl rfl rfl rfl⟩

/-- C2: evaluation of the code at deposits with negative amount. The
claim states that a negative Deposit changes nothing, and indeed
available and held stay unchanged, but the source inserts the DepositLog
before checking the sign, so the record for (1, 1) is replaced by one
carrying the negative amount, and a negative Deposit for an unknown
client still creates a fresh account with a record of the negative
amount. This contradicts the stated rejection semantics of the spec and
of the error log of Account::deposit. -/
theorem C2_negative_deposit_mutates_state :
    ClientInfoStorage.update [(1, ⟨100, 0, false⟩, [(1, ⟨100, false⟩)])]
        (Transaction.Deposit 1 1 (-50)) =
      [(1, ⟨100, 0, false⟩, [(1, ⟨-50, false⟩)])] ∧
    ClientInfoStorage.update [] (Transaction.Deposit 2 7 (-50)) =
      [(2, ⟨0, 0, false⟩, [(7, ⟨-50, false⟩)])] := by
  constructor <;>
    norm_num [ClientInfoStorage.update, alLookup, alUpdate, alInsert, depositEntry,
      Account.deposit, Account.default]

/-- C8 counterexample: with an existing record (1, 1) of amount 5 on an
unlocked account with available 5, a second Deposit of amount -3 replaces
the record with amount -3 and disputed false, but available stays 5, not
5 + (-3): the claim fails as stated for a negative second amount. -/
theorem C8_counterexample :
    alLookup 1 (ClientInfoStorage.update [(1, ⟨5, 0, false⟩, [(1, ⟨5, false⟩)])]
        (Transaction.Deposit 1 1 (-3))) =
      some (⟨5, 0, false⟩, [(1, ⟨-3, false⟩)]) ∧
    ¬ alLookup 1 (ClientInfoStorage.update [(1, ⟨5, 0, false⟩, [(1, ⟨5, false⟩)])]
          (Transaction.Deposit 1 1 (-3))) =
        some (⟨5 + (-3), 0, false⟩, [(1, ⟨-3, false⟩)]) := by
  constructor <;>
    norm_num [ClientInfoStorage.update, alLookup, alUpdate, alInsert, depositEntry,
      Account.deposit]

/-- C8 amended: on an existing unlocked account with a record for
(client, tx), a second Deposit of any amount silently replaces the
record with a new one carrying the new amount and disputed false (no
uniqueness enforcement); available grows by the new amount when the
amount is nonnegative and is unchanged when it is negative. Held and
locked are unchanged either way. -/
theorem C8_deposit_replaces_record (s : ClientInfoStorage) (c : ClientId)
    (tx : TransactionId) (amount : Amount) (acct : Account) (deps : Deposits)
    (dep : DepositLog) (h : alLookup c s = some (acct, deps))
    (hl : acct.locked = false) (_hd : alLookup tx deps = some dep) :
    alLookup c (ClientInfoStorage.update s (Transaction.Deposit c tx amount)) =
        some (⟨if 0 ≤ amount then acct.available + amount else acct.available,
               acct.held, acct.locked⟩,
              alInsert tx ⟨amount, false⟩ deps) ∧
      alLookup tx (alInsert tx (⟨amount, false⟩ : DepositLog) deps) =
        some ⟨amount, false⟩ := by
  refine ⟨?_, alLookup_alInsert_self _ _ _⟩
  simp only [ClientInfoStorage.update, h]
  rw [alLookup_alUpdate_self, h]
  obtain ⟨av, hh, lk⟩ := acct
  have hlk : lk = false := hl
  subst hlk
  by_cases ha : 0 ≤ amount
  · simp [depositEntry, Account.deposit, ha]
  · simp [depositEntry, Account.deposit, ha]

/-- Witness for the amended C8: a second deposit of amount -2 under the
already used transaction id 8, exercising the negative branch. -/
theorem C8_deposit_replaces_record_witness :
    alLookup 4 [(4, (⟨7, 0, false⟩ : Account), ([(8, ⟨6, false⟩)] : Deposits))] =
        some (⟨7, 0, false⟩, [(8, ⟨6, false⟩)]) ∧
      (⟨7, 0, false⟩ : Account).locked = false ∧
      alLookup 8 ([(8, ⟨6, false⟩)] : Deposits) = some ⟨6, false⟩ ∧
      (alLookup 4 (ClientInfoStorage.update [(4, ⟨7, 0, false⟩, [(8, ⟨6, false⟩)])]
            (Transaction.Deposit 4 8 (-2))) =
          some (⟨if (0 : Amount) ≤ -2 then (⟨7, 0, false⟩ : Account).available + -2
                 else (⟨7, 0, false⟩ : Account).available,
                 (⟨7, 0, false⟩ : Account).held, (⟨7, 0, false⟩ : Account).locked⟩,
                alInsert 8 (⟨-2, false⟩ : DepositLog) ([(8, ⟨6, false⟩)] : Deposits)) ∧
        alLookup 8 (alInsert 8 (⟨-2, false⟩ : DepositLog) ([(8, ⟨6, false⟩)] : Deposits)) =
          some ⟨-2, false⟩) :=
  ⟨rfl, rfl, rfl,
    C8_deposit_replaces_record [(4, ⟨7, 0, false⟩, [(8, ⟨6, false⟩)])] 4 8 (-2)
      ⟨7, 0, false⟩ [(8, ⟨6, false⟩)] ⟨6, false⟩ rfl rfl rfl⟩

/-- Applying any transaction preserves distinctness of the stored client
keys: alUpdate keeps the key list, and the Deposit arm only inserts a new
key when the client is unknown. -/
theorem nodup_alKeys_update (s : ClientInfoStorage) (t : Transaction)
    (h : (alKeys s).Nodup) : (alKeys (ClientInfoStorage.update s t)).Nodup := by
  cases t with
  | Deposit c tx amount =>
    simp only [ClientInfoStorage.update]
    cases hl : alLookup c s with
    | some v =>
      rw [alKeys_alUpdate]
      exact h
    | none => exact nodup_alKeys_alInsert _ _ _ h
  | Withdrawal c tx amount => simpa only [ClientInfoStorage.update, alKeys_alUpdate] using h
  | Dispute c tx => simpa only [ClientInfoStorage.update, alKeys_alUpdate] using h
  | Resolve c tx => simpa only [ClientInfoStorage.update, alKeys_alUpdate] using h
  | ChargeBack c tx => simpa only [ClientInfoStorage.update, alKeys_alUpdate] using h

/-- Folding a stream over storage with distinct client keys keeps them
distinct. -/
theorem nodup_alKeys_foldl (ts : List Transaction) :
    ∀ s : ClientInfoStorage, (alKeys s).Nodup →
      (alKeys (ts.foldl ClientInfoStorage.update s)).Nodup := by
  induction ts with
  | nil =>
    intro s hs
    simpa using hs
  | cons t rest ih =>
    intro s hs
    exact ih _ (nodup_alKeys_update s t hs)

/-- Every state reached by replaying a stream from the empty storage has
distinct client keys: each known client is stored exactly once. -/
theorem nodup_alKeys_replay (ts : List Transaction) : (alKeys (replay ts)).Nodup :=
  nodup_alKeys_foldl ts [] (by simp [alKeys_nil])

/-- The round-half-away-from-zero integer stays within half a unit of its
argument. -/
theorem abs_roundHalfAway_sub_le (y : Rat) : |(roundHalfAway y : Rat) - y| ≤ 1 / 2 := by
  unfold roundHalfAway
  by_cases h : 0 ≤ y
  · rw [if_pos h, ← round_eq, abs_sub_comm]
    exact abs_sub_round y
  · rw [if_neg h]
    have h2 := abs_sub_round (-y)
    rw [round_eq] at h2
    have heq : ((-⌊-y + 1 / 2⌋ : Int) : Rat) - y =
        (-y) - ((⌊-y + 1 / 2⌋ : Int) : Rat) := by
      push_cast
      ring
    rw [heq]
    exact h2

/-- round_to_4_dec differs from its argument by at most 1 / 10000, the
rounding tolerance of the spec. -/
theorem abs_round_to_4_dec_sub_le (x : Amount) :
    |round_to_4_dec x - x| ≤ 1 / 10000 := by
  have h := abs_roundHalfAway_sub_le (x * 10000)
  have h4 : (0 : Rat) < 10000 := by norm_num
  have heq : round_to_4_dec x - x =
      ((roundHalfAway (x * 10000) : Rat) - x * 10000) / 10000 := by
    unfold round_to_4_dec
    field_simp
    ring
  rw [heq, abs_div, abs_of_pos h4]
  calc |(roundHalfAway (x * 10000) : Rat) - x * 10000| / 10000 ≤ (1 / 2) / 10000 := by
        gcongr
    _ ≤ 1 / 10000 := by norm_num

/-- The snapshot lists exactly the stored clients, in storage order. -/
theorem snapshot_clients (s : ClientInfoStorage) :
    (get_csv_format_accounts s).map CsvAccount.client = alKeys s := by
  simp only [get_csv_format_accounts, List.map_map]
  rfl

/-- C7: the snapshot holds exactly one record for each known client; that
record carries the available and held amounts rounded to 4 decimals, the
locked flag, and a total computed as the rounding of available plus held
on the unrounded internal state; the reported total is within 1 / 10000
of the internal available plus held. -/
theorem C7_snapshot_spec (ts : List Transaction) (c : ClientId) (acct : Account)
    (deps : Deposits) (h : alLookup c (replay ts) = some (acct, deps)) :
    ((get_csv_format_accounts (replay ts)).map CsvAccount.client).count c = 1 ∧
      (⟨c, round_to_4_dec acct.available, round_to_4_dec acct.held,
         round_to_4_dec (acct.available + acct.held), acct.locked⟩ : CsvAccount)
        ∈ get_csv_format_accounts (replay ts) ∧
      |round_to_4_dec (acct.available + acct.held) - (acct.available + acct.held)| ≤
        1 / 10000 := by
  refine ⟨?_, ?_, abs_round_to_4_dec_sub_le _⟩
  · rw [snapshot_clients]
    exact List.count_eq_one_of_mem (nodup_alKeys_replay ts) (mem_alKeys_of_lookup _ _ _ h)
  · have hmem := alLookup_mem _ _ _ h
    exact List.mem_map.mpr ⟨(c, acct, deps), hmem, rfl⟩

/-- Witness for C7 on the single-deposit stream for client 1. -/
theorem C7_snapshot_spec_witness :
    alLookup 1 (replay [Transaction.Deposit 1 1 5]) =
        some (⟨5, 0, false⟩, [(1, ⟨5, false⟩)]) ∧
      (((get_csv_format_accounts (replay [Transaction.Deposit 1 1 5])).map
            CsvAccount.client).count 1 = 1 ∧
        (⟨1, round_to_4_dec ((5 : Amount)), round_to_4_dec ((0 : Amount)),
           round_to_4_dec ((5 : Amount) + 0), false⟩ : CsvAccount)
          ∈ get_csv_format_accounts (replay [Transaction.Deposit 1 1 5]) ∧
        |round_to_4_dec ((5 : Amount) + 0) - ((5 : Amount) + 0)| ≤ 1 / 10000) := by
  have h : alLookup 1 (replay [Transaction.Deposit 1 1 5]) =
      some (⟨5, 0, false⟩, [(1, ⟨5, false⟩)]) := by
    norm_num [replay, ClientInfoStorage.update, alLookup, alInsert, Account.deposit,
      Account.default]
  exact ⟨h, C7_snapshot_spec [Transaction.Deposit 1 1 5] 1 ⟨5, 0, false⟩
    [(1, ⟨5, false⟩)] h⟩
